import Mathlib

/-!
Shallow embedding of the `rand_key` password-generation engine
(`src/lib.rs`, `src/utils.rs`, `src/error.rs`, `src/prelude.rs`).

Rust `String`s are modelled as `List Char`; `BigUint` as `Nat`;
`Result<T, GenError>` as `Except GenError T`.  The thread RNG is modelled
by an oracle function supplying the successive draws of
`thread_rng().gen_range(0, length)` (theorems carry the range contract
`draw < length` as a hypothesis), and the in-place `shuffle` by an oracle
function together with the hypothesis that it permutes its input.
-/

/-- Rust `String` / `&str`, as a list of characters. -/
abbrev Str := List Char

/-- `char::is_ascii` — code point at most 0x7F. -/
def is_ascii (c : Char) : Bool := decide (c.toNat ≤ 127)

/-- `char::is_ascii_alphabetic` — `A`..`Z` or `a`..`z`. -/
def is_ascii_alphabetic (c : Char) : Bool :=
  decide ((65 ≤ c.toNat ∧ c.toNat ≤ 90) ∨ (97 ≤ c.toNat ∧ c.toNat ≤ 122))

/-- `char::is_ascii_punctuation` — the four ASCII punctuation ranges. -/
def is_ascii_punctuation (c : Char) : Bool :=
  decide ((33 ≤ c.toNat ∧ c.toNat ≤ 47) ∨ (58 ≤ c.toNat ∧ c.toNat ≤ 64) ∨
          (91 ≤ c.toNat ∧ c.toNat ≤ 96) ∨ (123 ≤ c.toNat ∧ c.toNat ≤ 126))

/-- `char::is_ascii_digit` — `0`..`9`. -/
def is_ascii_digit (c : Char) : Bool :=
  decide (48 ≤ c.toNat ∧ c.toNat ≤ 57)

/-- Number of bytes of the UTF-8 encoding of a character
(Rust `str::len` counts bytes). -/
def utf8Len (c : Char) : Nat :=
  if c.toNat < 128 then 1
  else if c.toNat < 2048 then 2
  else if c.toNat < 65536 then 3
  else 4

/-- Rust `str::len`: total UTF-8 byte length. -/
def byteLen (s : Str) : Nat := (s.map utf8Len).sum

/-- `utils::_DATA` — the default alphabet: the printable ASCII range
`33..127` classified into letters, symbols and digits, each character
kept as a one-character string.  (`prelude::_DATA` builds the same value.) -/
def _DATA : List (List Str) :=
  let chars := (List.range 94).map (fun i => Char.ofNat (33 + i))
  [ (chars.filter is_ascii_alphabetic).map (fun c => [c]),
    (chars.filter is_ascii_punctuation).map (fun c => [c]),
    (chars.filter is_ascii_digit).map (fun c => [c]) ]

/-- `error::GenError`.  The last two variants are *referenced* by
`lib.rs` (`set_key`, `data`, `clear`, `set_cnt`) but are absent from the
enum declared in `error.rs`; they are included here so that `lib.rs` can
be embedded as written. -/
inductive GenError where
  | MissChar : GenError
  | DelNonExistValue : GenError
  | InvalidUnit : GenError
  | InvalidChar : GenError
  | InvalidNumber : GenError
  | InconsistentField : GenError
  | InvalidOperation : Str → GenError
  | InvalidKind : Str → GenError
deriving DecidableEq, Repr

/-- `struct RandKey` of `lib.rs`. -/
structure RandKey where
  ltr_cnt : Nat
  sbl_cnt : Nat
  num_cnt : Nat
  key : Str
  UNIT : Nat
  DATA : List (List Str)
deriving DecidableEq, Repr

/-- Value of a list of decimal digits, most significant first. -/
def digitsToNat (s : Str) : Nat :=
  s.foldl (fun acc c => acc * 10 + (c.toNat - 48)) 0

/-- Modelled from the spec: the `AsBiguint` decimal-parse adapter used by
`RandKey::new` / `set_unit` / `set_cnt` is not present under `src/`
(only its `use` site is).  Per spec §4.1 it parses a decimal numeral into
a non-negative big integer and fails with `InvalidNumber` on any text
that is not a valid non-negative integer. -/
def as_biguint (s : Str) : Except GenError Nat :=
  if s ≠ [] ∧ s.all is_ascii_digit then .ok (digitsToNat s)
  else .error .InvalidNumber

/-- `RandKey::new`: parse the three counts (`check_init` requires all
three to parse), start with an empty key, `UNIT = u16::MAX = 65535` and
the default alphabet. -/
def RandKey.new (lS sS nS : Str) : Except GenError RandKey :=
  match as_biguint lS, as_biguint sS, as_biguint nS with
  | .ok a, .ok b, .ok c => .ok ⟨a, b, c, [], 65535, _DATA⟩
  | _, _, _ => .error .InvalidNumber

/-- `utils::_CNT`: count the letters, symbols and digits of a string
(each counter only ever incremented for an ASCII character), and fail
with `InvalidChar` unless the three counts sum to the byte length of the
string. -/
def _CNT (content : Str) : Except GenError (Nat × Nat × Nat) :=
  let l := content.countP (fun x => is_ascii x && is_ascii_alphabetic x)
  let s := content.countP (fun x => is_ascii x && is_ascii_punctuation x)
  let n := content.countP (fun x => is_ascii x && is_ascii_digit x)
  if l + s + n ≠ byteLen content then .error .InvalidChar
  else .ok (l, s, n)

/-- The operation name "update". -/
def opUpdate : Str := ['u', 'p', 'd', 'a', 't', 'e']

/-- The operation name "check". -/
def opCheck : Str := ['c', 'h', 'e', 'c', 'k']

/-- `RandKey::set_key`: recompute the class counts of `val` with `_CNT`,
then dispatch on the operation string: `update` overwrites counts and
key; `check` overwrites the key only when the recomputed counts equal the
stored ones and otherwise fails with `GenError::InvalidOperation(val)`
(as written in `lib.rs`); any other operation string falls into the
silent `_ => Ok(())` branch. -/
def set_key (r : RandKey) (val : Str) (op : Str) : Except GenError RandKey :=
  match _CNT val with
  | .error e => .error e
  | .ok (val_ltr_cnt, val_sbl_cnt, val_num_cnt) =>
    if op = opUpdate then
      .ok { r with ltr_cnt := val_ltr_cnt, sbl_cnt := val_sbl_cnt,
                   num_cnt := val_num_cnt, key := val }
    else if op = opCheck then
      if r.ltr_cnt = val_ltr_cnt ∧ r.sbl_cnt = val_sbl_cnt ∧ r.num_cnt = val_num_cnt then
        .ok { r with key := val }
      else
        .error (.InvalidOperation val)
    else
      .ok r

/-- `RandKey::check_data`: fail with `MissChar` when some class has a
nonzero count but an empty character set. -/
def check_data (r : RandKey) : Except GenError Unit :=
  if (!(r.ltr_cnt == 0) && (r.DATA.getD 0 []).isEmpty)
     || (!(r.sbl_cnt == 0) && (r.DATA.getD 1 []).isEmpty)
     || (!(r.num_cnt == 0) && (r.DATA.getD 2 []).isEmpty)
  then .error .MissChar
  else .ok ()

/-- The loop body of `utils::_DIV_UNIT`, with explicit fuel.  Each
iteration either terminates (pushing the remainder, which is also pushed
when it is zero) or subtracts `unit` and pushes `unit`.  Fuel `n`
suffices whenever `unit > 0`; for `unit = 0` the source loops forever
and the embedding returns after exhausting its fuel. -/
def divUnitGo (unit : Nat) : Nat → Nat → List Nat
  | n, 0 => [n]
  | n, fuel + 1 => if n < unit then [n] else unit :: divUnitGo unit (n - unit) fuel

/-- `utils::_DIV_UNIT`: greedily split `n` into `unit`-sized chunks
followed by the remainder. -/
def _DIV_UNIT (unit n : Nat) : List Nat := divUnitGo unit n n

/-- One chunk of `join`: `utils::_RAND_IDX(cnt, data.len())` draws `cnt`
random indices (`g i` is the `i`-th draw of the RNG oracle) and each is
mapped to the corresponding alphabet entry; the entries are concatenated. -/
def chunkStr (d : List Str) (g : Nat → Nat) (cnt : Nat) : Str :=
  ((List.range cnt).map (fun i => d.getD (g i) [])).flatten

/-- All chunks of one class, in chunk order; chunk `j` uses the draws
`g j ·` of the RNG oracle. -/
def chunksStr (d : List Str) (g : Nat → Nat → Nat) : Nat → List Nat → Str
  | _, [] => []
  | j, c :: cs => chunkStr d (g j) c ++ chunksStr d g (j + 1) cs

/-- One class of `join`: split the class count with `_DIV_UNIT`, sample
every chunk, concatenate in chunk order. -/
def classStr (unit cnt : Nat) (d : List Str) (g : Nat → Nat → Nat) : Str :=
  chunksStr d g 0 (_DIV_UNIT unit cnt)

/-- `RandKey::join`: on a clone of the engine, check `check_data`; on
success build the three per-class strings in fixed order (letters,
symbols, digits), concatenate, shuffle (`sh` is the shuffle oracle) and
store the result as the new key — the only field of `self` written.
On failure return the `check_data` error and leave `self` untouched. -/
def RandKey.join (r : RandKey) (gL gS gN : Nat → Nat → Nat) (sh : Str → Str) :
    Except GenError RandKey :=
  match check_data r with
  | .error e => .error e
  | .ok _ =>
    let PWD := classStr r.UNIT r.ltr_cnt (r.DATA.getD 0 []) gL
            ++ classStr r.UNIT r.sbl_cnt (r.DATA.getD 1 []) gS
            ++ classStr r.UNIT r.num_cnt (r.DATA.getD 2 []) gN
    .ok { r with key := sh PWD }

/-- `struct RandPwd` of the `prelude.rs` revision (`content` is the key
text, `_UNIT` a machine integer, `_DATA` the owned alphabet). -/
structure RandPwd where
  ltr_cnt : Nat
  sbl_cnt : Nat
  num_cnt : Nat
  content : Str
  UNIT : Nat
  DATA : List (List Str)
deriving DecidableEq, Repr

/-- `impl Add for RandPwd` (`prelude.rs`): counts are summed and the key
texts concatenated, but `_UNIT` is set to `1` and `_DATA` reset to
`Data::default()`. -/
def RandPwd.add (a b : RandPwd) : RandPwd :=
  ⟨a.ltr_cnt + b.ltr_cnt, a.sbl_cnt + b.sbl_cnt, a.num_cnt + b.num_cnt,
   a.content ++ b.content, 1, _DATA⟩

/-- `impl AddAssign for RandPwd` (`prelude.rs`): counts are summed and
the key texts concatenated in place; `_UNIT` and `_DATA` of the left
operand are left unchanged. -/
def RandPwd.addAssign (a b : RandPwd) : RandPwd :=
  { a with ltr_cnt := a.ltr_cnt + b.ltr_cnt, sbl_cnt := a.sbl_cnt + b.sbl_cnt,
           num_cnt := a.num_cnt + b.num_cnt, content := a.content ++ b.content }

/-! ### Helper lemmas about `_DIV_UNIT` -/

/-- The chunks always sum back to the split quantity (every branch of the
loop preserves the running sum, including the fuel-exhausted one). -/
theorem divUnitGo_sum (unit : Nat) : ∀ fuel n, (divUnitGo unit n fuel).sum = n := by
  intro fuel
  induction fuel with
  | zero => intro n; simp [divUnitGo]
  | succ f ih =>
    intro n
    by_cases h : n < unit
    · simp [divUnitGo, h]
    · simp [divUnitGo, h, ih]
      omega

/-- With positive `unit` and enough fuel, every chunk is at most `unit`. -/
theorem divUnitGo_le (unit : Nat) :
    ∀ fuel n, 0 < unit → n ≤ fuel → ∀ x ∈ divUnitGo unit n fuel, x ≤ unit := by
  intro fuel
  induction fuel with
  | zero =>
    intro n hu hn x hx
    simp [divUnitGo] at hx
    omega
  | succ f ih =>
    intro n hu hn x hx
    by_cases h : n < unit
    · simp [divUnitGo, h] at hx
      omega
    · simp [divUnitGo, h] at hx
      rcases hx with hx | hx
      · omega
      · exact ih (n - unit) hu (by omega) x hx

/-- With positive `unit` and enough fuel, the loop emits exactly
`n / unit + 1` chunks: `n / unit` full units and then one remainder,
emitted even when it is zero. -/
theorem divUnitGo_length (unit : Nat) :
    ∀ fuel n, 0 < unit → n ≤ fuel → (divUnitGo unit n fuel).length = n / unit + 1 := by
  intro fuel
  induction fuel with
  | zero =>
    intro n hu hn
    have : n = 0 := by omega
    subst this
    simp [divUnitGo]
  | succ f ih =>
    intro n hu hn
    by_cases h : n < unit
    · simp [divUnitGo, h, Nat.div_eq_of_lt h]
    · have hle : unit ≤ n := by omega
      simp [divUnitGo, h, ih (n - unit) hu (by omega)]
      rw [Nat.div_eq_sub_div hu hle]

/-- C3: For every totalCount ≥ 0 and every unit > 0, the chunker's divide
operation returns a sequence whose elements sum to exactly totalCount and
in which every element is ≤ unit. -/
theorem C3_div_unit_sum_and_bound (n unit : Nat) (hu : 0 < unit) :
    (_DIV_UNIT unit n).sum = n ∧ ∀ x ∈ _DIV_UNIT unit n, x ≤ unit :=
  ⟨divUnitGo_sum unit n n, divUnitGo_le unit n n hu (Nat.le_refl n)⟩

/-- Witness for C3 at totalCount = 13, unit = 5. -/
theorem C3_witness :
    (_DIV_UNIT 5 13).sum = 13 ∧ ∀ x ∈ _DIV_UNIT 5 13, x ≤ 5 :=
  C3_div_unit_sum_and_bound 13 5 (by decide)

/-- C4 counterexample: at totalCount = 5, unit = 5 the divide operation
returns `[5, 0]` with 2 elements, while `ceil(5 / 5) = (5 + 5 - 1) / 5 = 1`. -/
theorem C4_counterexample : ¬ ((_DIV_UNIT 5 5).length = (5 + 5 - 1) / 5) := by
  decide

/-- C4 amended: for every totalCount ≥ 0 and unit > 0 the number of
elements is `totalCount / unit + 1` (floor division plus one) — a
trailing remainder chunk is always emitted, even a zero one, so the count
exceeds `ceil(totalCount / unit)` exactly when unit divides totalCount. -/
theorem C4_amended_length (n unit : Nat) (hu : 0 < unit) :
    (_DIV_UNIT unit n).length = n / unit + 1 :=
  divUnitGo_length unit n n hu (Nat.le_refl n)

/-- Witness for the amended C4 at totalCount = 7, unit = 3. -/
theorem C4_witness : (_DIV_UNIT 3 7).length = 7 / 3 + 1 :=
  C4_amended_length 7 3 (by decide)

/-! ### Join failure and frame properties -/

/-- A convenient concrete zero engine with the default alphabet. -/
def rZero : RandKey := ⟨0, 0, 0, [], 65535, _DATA⟩

/-- A degenerate RNG oracle. -/
def zOracle : Nat → Nat → Nat := fun _ _ => 0

/-- C5: whenever the consistency check fails — some class has a nonzero
count but an empty character set — `join` fails with `MissChar`
(`MissingCharacterClass`) and returns no modified engine, so the
previously stored key is untouched (in the source, `self` is only written
after the check succeeds). -/
theorem C5_join_fails_miss_char (r : RandKey) (gL gS gN : Nat → Nat → Nat)
    (sh : Str → Str)
    (h : (r.ltr_cnt ≠ 0 ∧ r.DATA.getD 0 [] = []) ∨
         (r.sbl_cnt ≠ 0 ∧ r.DATA.getD 1 [] = []) ∨
         (r.num_cnt ≠ 0 ∧ r.DATA.getD 2 [] = [])) :
    r.join gL gS gN sh = .error .MissChar := by
  have hc : check_data r = .error .MissChar := by
    unfold check_data
    rcases h with ⟨h1, h2⟩ | ⟨h1, h2⟩ | ⟨h1, h2⟩ <;> rw [h2] <;> simp [h1]
  unfold RandKey.join
  rw [hc]

/-- Witness for C5: one requested letter but an empty letter set. -/
theorem C5_witness :
    RandKey.join ⟨1, 0, 0, ['k'], 65535, [[], [], []]⟩ zOracle zOracle zOracle id
      = .error .MissChar :=
  C5_join_fails_miss_char _ _ _ _ _ (Or.inl (by decide))

/-- C9: on every successful `join` the only field that changes is the
key: the three class counts, the unit and the alphabet data of the result
are exactly those of the engine before the call (generation runs on an
internal clone and writes back only `key`). -/
theorem C9_join_frame (r r' : RandKey) (gL gS gN : Nat → Nat → Nat)
    (sh : Str → Str) (h : r.join gL gS gN sh = .ok r') :
    r'.ltr_cnt = r.ltr_cnt ∧ r'.sbl_cnt = r.sbl_cnt ∧ r'.num_cnt = r.num_cnt ∧
    r'.UNIT = r.UNIT ∧ r'.DATA = r.DATA := by
  unfold RandKey.join at h
  cases hc : check_data r with
  | error e => rw [hc] at h; cases h
  | ok u =>
    rw [hc] at h
    cases h
    exact ⟨rfl, rfl, rfl, rfl, rfl⟩

/-- Witness for C9 at the zero engine, on which `join` succeeds. -/
theorem C9_witness :
    rZero.ltr_cnt = rZero.ltr_cnt ∧ rZero.sbl_cnt = rZero.sbl_cnt ∧
    rZero.num_cnt = rZero.num_cnt ∧ rZero.UNIT = rZero.UNIT ∧
    rZero.DATA = rZero.DATA :=
  C9_join_frame rZero rZero zOracle zOracle zOracle id (by rfl)

/-- C10: for a classifiable text (`_CNT` succeeds), `set_key` with an
operation string other than "update" and "check" returns `Ok` and leaves
the key and all three class counts unchanged — the unknown mode is
silently ignored. -/
theorem C10_set_key_unknown_op (r : RandKey) (val op : Str)
    (hval : (_CNT val).isOk = true) (h1 : op ≠ opUpdate) (h2 : op ≠ opCheck) :
    set_key r val op = .ok r := by
  unfold set_key
  cases hc : _CNT val with
  | error e => rw [hc] at hval; simp [Except.isOk, Except.toBool] at hval
  | ok t =>
    obtain ⟨l, s, n⟩ := t
    simp [h1, h2]

/-- Witness for C10: classifiable text "a", unknown operation "foo". -/
theorem C10_witness : set_key rZero ['a'] ['f', 'o', 'o'] = .ok rZero :=
  C10_set_key_unknown_op rZero ['a'] ['f', 'o', 'o'] (by decide) (by decide) (by decide)

/-! ### Engine combination (`prelude.rs`) and `set_key` check mode -/

/-- A concrete left operand with a non-default unit. -/
def pwdA : RandPwd := ⟨1, 2, 3, ['x'], 7, _DATA⟩

/-- A concrete right operand. -/
def pwdB : RandPwd := ⟨4, 5, 6, ['y'], 9, _DATA⟩

/-- C8 counterexample: `+` does not keep the left operand's unit (it
resets it to `1`): with a left operand whose unit is `7`, the combined
engine's unit is `1`. -/
theorem C8_counterexample : ¬ ((pwdA.add pwdB).UNIT = pwdA.UNIT) := by decide

/-- C8 amended: combining with `+` yields element-wise count sums and the
concatenated key, but sets the unit to `1` and resets the alphabet to the
default; `+=` yields the sums and the concatenation while keeping the
left operand's unit and alphabet unchanged (no union is taken in either
case). -/
theorem C8_amended_add_addAssign (a b : RandPwd) :
    (a.add b).ltr_cnt = a.ltr_cnt + b.ltr_cnt ∧
    (a.add b).sbl_cnt = a.sbl_cnt + b.sbl_cnt ∧
    (a.add b).num_cnt = a.num_cnt + b.num_cnt ∧
    (a.add b).content = a.content ++ b.content ∧
    (a.add b).UNIT = 1 ∧ (a.add b).DATA = _DATA ∧
    (a.addAssign b).ltr_cnt = a.ltr_cnt + b.ltr_cnt ∧
    (a.addAssign b).sbl_cnt = a.sbl_cnt + b.sbl_cnt ∧
    (a.addAssign b).num_cnt = a.num_cnt + b.num_cnt ∧
    (a.addAssign b).content = a.content ++ b.content ∧
    (a.addAssign b).UNIT = a.UNIT ∧ (a.addAssign b).DATA = a.DATA :=
  ⟨rfl, rfl, rfl, rfl, rfl, rfl, rfl, rfl, rfl, rfl, rfl, rfl⟩

/-- C6: evaluating `set_key` in check mode at the spec's own failing
input — the engine from `new("10","2","3")` and the text "123456" — the
code rejects the text (counts `(0,0,6)` differ from `(10,2,3)`) but
returns `GenError::InvalidOperation("123456")`, a variant that `lib.rs`
names although it is not declared in `error.rs`, instead of the
`InconsistentField` variant that `error.rs` declares for this purpose. -/
theorem C6_check_mismatch_variant :
    (RandKey.new ['1', '0'] ['2'] ['3']).bind
        (fun e => set_key e ['1', '2', '3', '4', '5', '6'] opCheck)
      = .error (.InvalidOperation ['1', '2', '3', '4', '5', '6']) := by
  rfl

/-! ### `set_key` update mode (C7) -/

/-- A character that falls in one of the three alphabet classes. -/
def classifiable (c : Char) : Bool :=
  is_ascii_alphabetic c || is_ascii_punctuation c || is_ascii_digit c

/-- Per character, the three class counters gain at most one in total,
never more than the character's byte length; they gain exactly its byte
length iff the character is classifiable (the classes are disjoint, a
classifiable character is ASCII and one byte long, and an unclassifiable
character contributes zero to the counters but at least one byte). -/
theorem char_contrib (c : Char) :
    ((if (is_ascii c && is_ascii_alphabetic c) = true then 1 else 0) +
       (if (is_ascii c && is_ascii_punctuation c) = true then 1 else 0) +
       (if (is_ascii c && is_ascii_digit c) = true then 1 else 0) ≤ utf8Len c) ∧
    (((if (is_ascii c && is_ascii_alphabetic c) = true then 1 else 0) +
        (if (is_ascii c && is_ascii_punctuation c) = true then 1 else 0) +
        (if (is_ascii c && is_ascii_digit c) = true then 1 else 0) = utf8Len c) ↔
      classifiable c = true) := by
  simp only [is_ascii, is_ascii_alphabetic, is_ascii_punctuation, is_ascii_digit,
    classifiable, utf8Len, Bool.and_eq_true, Bool.or_eq_true, decide_eq_true_eq]
  split_ifs <;> omega

/-- Summed over a string: the three class counts total at most the byte
length, with equality iff every character is classifiable. -/
theorem cnt_sum_le_byteLen (val : Str) :
    (val.countP (fun x => is_ascii x && is_ascii_alphabetic x) +
       val.countP (fun x => is_ascii x && is_ascii_punctuation x) +
       val.countP (fun x => is_ascii x && is_ascii_digit x) ≤ byteLen val) ∧
    ((val.countP (fun x => is_ascii x && is_ascii_alphabetic x) +
        val.countP (fun x => is_ascii x && is_ascii_punctuation x) +
        val.countP (fun x => is_ascii x && is_ascii_digit x) = byteLen val) ↔
      ∀ c ∈ val, classifiable c = true) := by
  induction val with
  | nil => simp [byteLen]
  | cons c t ih =>
    have hc := char_contrib c
    have hb : byteLen (c :: t) = utf8Len c + byteLen t := by
      simp [byteLen]
    simp only [List.countP_cons, hb, List.mem_cons]
    constructor
    · omega
    · constructor
      · intro h
        have hceq : (if (is_ascii c && is_ascii_alphabetic c) = true then 1 else 0) +
            (if (is_ascii c && is_ascii_punctuation c) = true then 1 else 0) +
            (if (is_ascii c && is_ascii_digit c) = true then 1 else 0) = utf8Len c := by
          omega
        intro x hx
        rcases hx with rfl | hx
        · exact hc.2.mp hceq
        · exact (ih.2.mp (by omega)) x hx
      · intro h
        have h1 := hc.2.mpr (h c (Or.inl rfl))
        have h2 := ih.2.mpr (fun x hx => h x (Or.inr hx))
        omega

/-- C7 counterexample: the one-character text " " is ASCII-only, yet
`set_key(" ", "update")` on the engine from `new("10","2","3")` fails
with `InvalidChar` — a space is ASCII but belongs to no class, so the
recomputed counts `(0,0,0)` cannot total the text's length. -/
theorem C7_counterexample :
    (∀ c ∈ [' '], is_ascii c = true) ∧
    (RandKey.new ['1', '0'] ['2'] ['3']).bind
        (fun e => set_key e [' '] opUpdate) = .error .InvalidChar :=
  ⟨by decide, by rfl⟩

/-- C7 amended: `set_key(val, "update")` succeeds — overwriting the three
class counts with the recomputed ASCII classification counts of `val` and
the key with `val` together — iff every character of `val` is ASCII
alphabetic, ASCII punctuation or an ASCII digit, and fails with
`InvalidChar` otherwise (so also on ASCII characters in no class, such as
spaces and control characters, not only on non-ASCII input). -/
theorem C7_amended_set_key_update (r : RandKey) (val : Str) :
    set_key r val opUpdate =
      if val.all classifiable then
        .ok { r with
              ltr_cnt := val.countP (fun x => is_ascii x && is_ascii_alphabetic x),
              sbl_cnt := val.countP (fun x => is_ascii x && is_ascii_punctuation x),
              num_cnt := val.countP (fun x => is_ascii x && is_ascii_digit x),
              key := val }
      else .error .InvalidChar := by
  unfold set_key _CNT
  by_cases h : ∀ c ∈ val, classifiable c = true
  · have hsum := (cnt_sum_le_byteLen val).2.mpr h
    rw [if_pos (List.all_eq_true.mpr h)]
    simp [hsum]
  · have hsum : ¬ (val.countP (fun x => is_ascii x && is_ascii_alphabetic x) +
        val.countP (fun x => is_ascii x && is_ascii_punctuation x) +
        val.countP (fun x => is_ascii x && is_ascii_digit x) = byteLen val) :=
      fun heq => h ((cnt_sum_le_byteLen val).2.mp heq)
    rw [if_neg (fun hall => h (List.all_eq_true.mp hall))]
    simp [hsum]

/-! ### Length and character-class facts about generated keys -/

/-- Summing a function that is `1` on every element gives the length. -/
theorem sum_map_const_one {α : Type} (l : List α) (f : α → Nat)
    (h : ∀ x ∈ l, f x = 1) : (l.map f).sum = l.length := by
  induction l with
  | nil => rfl
  | cons x t ih =>
    simp only [List.map_cons, List.sum_cons, List.length_cons,
      h x (List.mem_cons_self x t)]
    rw [ih (fun y hy => h y (List.mem_cons_of_mem x hy))]
    omega

/-- A defaulted lookup at an in-range index is a member of the list. -/
theorem getD_mem_of_lt {α : Type} (l : List α) (d : α) (i : Nat)
    (h : i < l.length) : l.getD i d ∈ l := by
  rw [List.getD_eq_getElem l d h]
  exact List.getElem_mem h

/-- One chunk samples exactly `cnt` alphabet entries, so its length is
`cnt` when every sampled entry is a one-character string. -/
theorem chunkStr_length (d : List Str) (g : Nat → Nat) (cnt : Nat)
    (h : ∀ i, (d.getD (g i) []).length = 1) :
    (chunkStr d g cnt).length = cnt := by
  unfold chunkStr
  rw [List.length_flatten, List.map_map]
  simp only [Function.comp_def]
  rw [sum_map_const_one _ _ (fun i _ => h i)]
  exact List.length_range cnt

/-- The chunks of one class concatenate to a string whose length is the
sum of the chunk sizes. -/
theorem chunksStr_length (d : List Str) (g : Nat → Nat → Nat)
    (h : ∀ j i, (d.getD (g j i) []).length = 1) :
    ∀ cs j, (chunksStr d g j cs).length = cs.sum := by
  intro cs
  induction cs with
  | nil => intro j; rfl
  | cons c t ih =>
    intro j
    simp only [chunksStr, List.length_append, List.sum_cons,
      chunkStr_length d (g j) c (h j), ih (j + 1)]

/-- One class of `join` produces exactly `cnt` characters. -/
theorem classStr_length (unit cnt : Nat) (d : List Str) (g : Nat → Nat → Nat)
    (h : ∀ j i, (d.getD (g j i) []).length = 1) :
    (classStr unit cnt d g).length = cnt := by
  unfold classStr _DIV_UNIT
  rw [chunksStr_length d g h _ 0]
  exact divUnitGo_sum unit cnt cnt

/-- Every character of a chunk comes from the sampled alphabet, so any
property holding on all alphabet characters holds on the chunk. -/
theorem chunkStr_chars (d : List Str) (g : Nat → Nat) (cnt : Nat)
    (hg : ∀ i, g i < d.length) (p : Char → Bool)
    (hd : ∀ s ∈ d, ∀ ch ∈ s, p ch = true) :
    ∀ ch ∈ chunkStr d g cnt, p ch = true := by
  intro ch hch
  unfold chunkStr at hch
  rw [List.mem_flatten] at hch
  obtain ⟨s, hs, hchs⟩ := hch
  rw [List.mem_map] at hs
  obtain ⟨i, _, rfl⟩ := hs
  exact hd _ (getD_mem_of_lt d [] (g i) (hg i)) ch hchs

/-- Character-class property of the concatenated chunks of one class. -/
theorem chunksStr_chars (d : List Str) (g : Nat → Nat → Nat)
    (hg : ∀ j i, g j i < d.length) (p : Char → Bool)
    (hd : ∀ s ∈ d, ∀ ch ∈ s, p ch = true) :
    ∀ cs j, ∀ ch ∈ chunksStr d g j cs, p ch = true := by
  intro cs
  induction cs with
  | nil => intro j ch hch; cases hch
  | cons c t ih =>
    intro j ch hch
    rw [chunksStr, List.mem_append] at hch
    rcases hch with hch | hch
    · exact chunkStr_chars d (g j) c (hg j) p hd ch hch
    · exact ih (j + 1) ch hch

/-- Character-class property of one generated class string. -/
theorem classStr_chars (unit cnt : Nat) (d : List Str) (g : Nat → Nat → Nat)
    (hg : ∀ j i, g j i < d.length) (p : Char → Bool)
    (hd : ∀ s ∈ d, ∀ ch ∈ s, p ch = true) :
    ∀ ch ∈ classStr unit cnt d g, p ch = true :=
  chunksStr_chars d g hg p hd (_DIV_UNIT unit cnt) 0

/-- Bundled per-character facts for the default letter set: counted as a
letter, not as a symbol or digit, and one byte long. -/
def ltrFacts (ch : Char) : Bool :=
  (is_ascii ch && is_ascii_alphabetic ch) &&
  !(is_ascii ch && is_ascii_punctuation ch) &&
  !(is_ascii ch && is_ascii_digit ch) && (utf8Len ch == 1)

/-- Bundled per-character facts for the default symbol set. -/
def sblFacts (ch : Char) : Bool :=
  !(is_ascii ch && is_ascii_alphabetic ch) &&
  (is_ascii ch && is_ascii_punctuation ch) &&
  !(is_ascii ch && is_ascii_digit ch) && (utf8Len ch == 1)

/-- Bundled per-character facts for the default digit set. -/
def numFacts (ch : Char) : Bool :=
  !(is_ascii ch && is_ascii_alphabetic ch) &&
  !(is_ascii ch && is_ascii_punctuation ch) &&
  (is_ascii ch && is_ascii_digit ch) && (utf8Len ch == 1)

/-- The default letter set: 52 one-character strings of letters. -/
theorem default_D0 :
    (_DATA.getD 0 []).length = 52 ∧ (∀ s ∈ _DATA.getD 0 [], s.length = 1) ∧
    ∀ s ∈ _DATA.getD 0 [], ∀ ch ∈ s, ltrFacts ch = true := by decide

/-- The default symbol set: 32 one-character strings of punctuation. -/
theorem default_D1 :
    (_DATA.getD 1 []).length = 32 ∧ (∀ s ∈ _DATA.getD 1 [], s.length = 1) ∧
    ∀ s ∈ _DATA.getD 1 [], ∀ ch ∈ s, sblFacts ch = true := by decide

/-- The default digit set: 10 one-character strings of digits. -/
theorem default_D2 :
    (_DATA.getD 2 []).length = 10 ∧ (∀ s ∈ _DATA.getD 2 [], s.length = 1) ∧
    ∀ s ∈ _DATA.getD 2 [], ∀ ch ∈ s, numFacts ch = true := by decide

/-- The three default character sets are non-empty (so `check_data`
passes on any engine carrying the default alphabet). -/
theorem default_nonempty :
    (_DATA.getD 0 []).isEmpty = false ∧ (_DATA.getD 1 []).isEmpty = false ∧
    (_DATA.getD 2 []).isEmpty = false := by decide

/-- `check_data` accepts every engine with the default alphabet. -/
theorem check_data_default (a b c : Nat) (key : Str) (unit : Nat) :
    check_data ⟨a, b, c, key, unit, _DATA⟩ = .ok () := by
  unfold check_data
  simp only [default_nonempty.1, default_nonempty.2.1, default_nonempty.2.2,
    Bool.and_false, Bool.or_self, Bool.false_or]
  rfl

/-- C1: for every engine constructed from valid non-negative decimal
count texts (a,b,c) with the default alphabet, `generate()` (the `join`
operation) succeeds, and afterwards the key's length equals exactly
a + b + c.  The RNG oracles obey the `gen_range(0, len)` contract for the
default class sizes 52, 32 and 10, and the shuffle oracle permutes its
input. -/
theorem C1_generate_length (la sb nc : Str) (a b c : Nat)
    (ha : as_biguint la = .ok a) (hb : as_biguint sb = .ok b)
    (hc : as_biguint nc = .ok c)
    (gL gS gN : Nat → Nat → Nat) (sh : Str → Str)
    (hgL : ∀ j i, gL j i < 52) (hgS : ∀ j i, gS j i < 32)
    (hgN : ∀ j i, gN j i < 10) (hsh : ∀ w, (sh w).Perm w) :
    ∃ k, (RandKey.new la sb nc).bind (fun e => e.join gL gS gN sh) = .ok k ∧
      k.key.length = a + b + c := by
  have hnew : RandKey.new la sb nc = .ok ⟨a, b, c, [], 65535, _DATA⟩ := by
    unfold RandKey.new
    rw [ha, hb, hc]
  have hsglL : ∀ j i, ((_DATA.getD 0 []).getD (gL j i) []).length = 1 := by
    intro j i
    exact default_D0.2.1 _ (getD_mem_of_lt _ [] _ (default_D0.1 ▸ hgL j i))
  have hsglS : ∀ j i, ((_DATA.getD 1 []).getD (gS j i) []).length = 1 := by
    intro j i
    exact default_D1.2.1 _ (getD_mem_of_lt _ [] _ (default_D1.1 ▸ hgS j i))
  have hsglN : ∀ j i, ((_DATA.getD 2 []).getD (gN j i) []).length = 1 := by
    intro j i
    exact default_D2.2.1 _ (getD_mem_of_lt _ [] _ (default_D2.1 ▸ hgN j i))
  refine ⟨⟨a, b, c,
    sh (classStr 65535 a (_DATA.getD 0 []) gL ++
        classStr 65535 b (_DATA.getD 1 []) gS ++
        classStr 65535 c (_DATA.getD 2 []) gN), 65535, _DATA⟩, ?_, ?_⟩
  · rw [hnew]
    show RandKey.join _ gL gS gN sh = _
    unfold RandKey.join
    rw [check_data_default]
  · show (sh _).length = a + b + c
    rw [(hsh _).length_eq, List.length_append, List.length_append,
      classStr_length 65535 a _ gL hsglL, classStr_length 65535 b _ gS hsglS,
      classStr_length 65535 c _ gN hsglN]

/-- Witness for C1: counts ("10","2","3"), the all-zero RNG oracle and
the identity shuffle; the generated key has length 15. -/
theorem C1_witness :
    ∃ k, (RandKey.new ['1', '0'] ['2'] ['3']).bind
        (fun e => e.join zOracle zOracle zOracle id) = .ok k ∧
      k.key.length = 10 + 2 + 3 :=
  C1_generate_length ['1', '0'] ['2'] ['3'] 10 2 3 (by rfl) (by rfl) (by rfl)
    zOracle zOracle zOracle id (fun _ _ => Nat.zero_lt_succ _)
    (fun _ _ => Nat.zero_lt_succ _) (fun _ _ => Nat.zero_lt_succ _)
    (fun w => List.Perm.refl w)

/-- Components of `ltrFacts`. -/
theorem ltrFacts_split (ch : Char) (h : ltrFacts ch = true) :
    (is_ascii ch && is_ascii_alphabetic ch) = true ∧
    (is_ascii ch && is_ascii_punctuation ch) = false ∧
    (is_ascii ch && is_ascii_digit ch) = false ∧ utf8Len ch = 1 := by
  simp only [ltrFacts, Bool.and_eq_true, Bool.not_eq_true', beq_iff_eq] at h
  exact ⟨(Bool.and_eq_true _ _) ▸ h.1.1.1, h.1.1.2, h.1.2, h.2⟩

/-- Components of `sblFacts`. -/
theorem sblFacts_split (ch : Char) (h : sblFacts ch = true) :
    (is_ascii ch && is_ascii_alphabetic ch) = false ∧
    (is_ascii ch && is_ascii_punctuation ch) = true ∧
    (is_ascii ch && is_ascii_digit ch) = false ∧ utf8Len ch = 1 := by
  simp only [sblFacts, Bool.and_eq_true, Bool.not_eq_true', beq_iff_eq] at h
  exact ⟨h.1.1.1, (Bool.and_eq_true _ _) ▸ h.1.1.2, h.1.2, h.2⟩

/-- Components of `numFacts`. -/
theorem numFacts_split (ch : Char) (h : numFacts ch = true) :
    (is_ascii ch && is_ascii_alphabetic ch) = false ∧
    (is_ascii ch && is_ascii_punctuation ch) = false ∧
    (is_ascii ch && is_ascii_digit ch) = true ∧ utf8Len ch = 1 := by
  simp only [numFacts, Bool.and_eq_true, Bool.not_eq_true', beq_iff_eq] at h
  exact ⟨h.1.1.1, h.1.1.2, (Bool.and_eq_true _ _) ▸ h.1.2, h.2⟩

/-- `countP` of an everywhere-false predicate is zero. -/
theorem countP_zero_of_false {p : Char → Bool} {l : Str}
    (h : ∀ x ∈ l, p x = false) : l.countP p = 0 :=
  List.countP_eq_zero.mpr (fun x hx => by simp [h x hx])

/-- `countP` of an everywhere-true predicate is the length. -/
theorem countP_full_of_true {p : Char → Bool} {l : Str}
    (h : ∀ x ∈ l, p x = true) : l.countP p = l.length :=
  List.countP_eq_length.mpr h

/-- Byte length is invariant under permutation. -/
theorem byteLen_perm (s t : Str) (h : s.Perm t) : byteLen s = byteLen t :=
  (h.map utf8Len).sum_eq

/-- A string of one-byte characters has as many bytes as characters. -/
theorem byteLen_eq_length (s : Str) (h : ∀ c ∈ s, utf8Len c = 1) :
    byteLen s = s.length :=
  sum_map_const_one s utf8Len h

/-- C2: for every key produced by a successful `generate()` on an engine
with counts (a,b,c) and the default alphabet, re-scanning the key
character by character with the ASCII classification (`_CNT`) yields
exactly (a,b,c) again. -/
theorem C2_classification_roundtrip (la sb nc : Str) (a b c : Nat)
    (ha : as_biguint la = .ok a) (hb : as_biguint sb = .ok b)
    (hc : as_biguint nc = .ok c)
    (gL gS gN : Nat → Nat → Nat) (sh : Str → Str)
    (hgL : ∀ j i, gL j i < 52) (hgS : ∀ j i, gS j i < 32)
    (hgN : ∀ j i, gN j i < 10) (hsh : ∀ w, (sh w).Perm w) :
    ∃ k, (RandKey.new la sb nc).bind (fun e => e.join gL gS gN sh) = .ok k ∧
      _CNT k.key = .ok (a, b, c) := by
  have hnew : RandKey.new la sb nc = .ok ⟨a, b, c, [], 65535, _DATA⟩ := by
    unfold RandKey.new
    rw [ha, hb, hc]
  have hbndL : ∀ j i, gL j i < (_DATA.getD 0 []).length := by
    intro j i; rw [default_D0.1]; exact hgL j i
  have hbndS : ∀ j i, gS j i < (_DATA.getD 1 []).length := by
    intro j i; rw [default_D1.1]; exact hgS j i
  have hbndN : ∀ j i, gN j i < (_DATA.getD 2 []).length := by
    intro j i; rw [default_D2.1]; exact hgN j i
  have hsglL : ∀ j i, ((_DATA.getD 0 []).getD (gL j i) []).length = 1 :=
    fun j i => default_D0.2.1 _ (getD_mem_of_lt _ [] _ (hbndL j i))
  have hsglS : ∀ j i, ((_DATA.getD 1 []).getD (gS j i) []).length = 1 :=
    fun j i => default_D1.2.1 _ (getD_mem_of_lt _ [] _ (hbndS j i))
  have hsglN : ∀ j i, ((_DATA.getD 2 []).getD (gN j i) []).length = 1 :=
    fun j i => default_D2.2.1 _ (getD_mem_of_lt _ [] _ (hbndN j i))
  set A := classStr 65535 a (_DATA.getD 0 []) gL with hA
  set B := classStr 65535 b (_DATA.getD 1 []) gS with hB
  set C := classStr 65535 c (_DATA.getD 2 []) gN with hC
  have hAf : ∀ ch ∈ A, ltrFacts ch = true :=
    classStr_chars 65535 a _ gL hbndL ltrFacts default_D0.2.2
  have hBf : ∀ ch ∈ B, sblFacts ch = true :=
    classStr_chars 65535 b _ gS hbndS sblFacts default_D1.2.2
  have hCf : ∀ ch ∈ C, numFacts ch = true :=
    classStr_chars 65535 c _ gN hbndN numFacts default_D2.2.2
  have hAlen : A.length = a := classStr_length 65535 a _ gL hsglL
  have hBlen : B.length = b := classStr_length 65535 b _ gS hsglS
  have hClen : C.length = c := classStr_length 65535 c _ gN hsglN
  have hperm : (sh (A ++ B ++ C)).Perm (A ++ B ++ C) := hsh _
  have hl : (sh (A ++ B ++ C)).countP
      (fun x => is_ascii x && is_ascii_alphabetic x) = a := by
    rw [hperm.countP_eq, List.countP_append, List.countP_append]
    rw [countP_full_of_true (fun x hx => (ltrFacts_split x (hAf x hx)).1),
      countP_zero_of_false (fun x hx => (sblFacts_split x (hBf x hx)).1),
      countP_zero_of_false (fun x hx => (numFacts_split x (hCf x hx)).1), hAlen]
    omega
  have hs : (sh (A ++ B ++ C)).countP
      (fun x => is_ascii x && is_ascii_punctuation x) = b := by
    rw [hperm.countP_eq, List.countP_append, List.countP_append]
    rw [countP_zero_of_false (fun x hx => (ltrFacts_split x (hAf x hx)).2.1),
      countP_full_of_true (fun x hx => (sblFacts_split x (hBf x hx)).2.1),
      countP_zero_of_false (fun x hx => (numFacts_split x (hCf x hx)).2.1), hBlen]
    omega
  have hn : (sh (A ++ B ++ C)).countP
      (fun x => is_ascii x && is_ascii_digit x) = c := by
    rw [hperm.countP_eq, List.countP_append, List.countP_append]
    rw [countP_zero_of_false (fun x hx => (ltrFacts_split x (hAf x hx)).2.2.1),
      countP_zero_of_false (fun x hx => (sblFacts_split x (hBf x hx)).2.2.1),
      countP_full_of_true (fun x hx => (numFacts_split x (hCf x hx)).2.2.1), hClen]
    omega
  have hbyte : byteLen (sh (A ++ B ++ C)) = a + b + c := by
    rw [byteLen_perm _ _ hperm]
    rw [byteLen_eq_length _ (fun x hx => by
      rcases List.mem_append.mp hx with hx | hx
      · rcases List.mem_append.mp hx with hx | hx
        · exact (ltrFacts_split x (hAf x hx)).2.2.2
        · exact (sblFacts_split x (hBf x hx)).2.2.2
      · exact (numFacts_split x (hCf x hx)).2.2.2)]
    rw [List.length_append, List.length_append, hAlen, hBlen, hClen]
  refine ⟨⟨a, b, c, sh (A ++ B ++ C), 65535, _DATA⟩, ?_, ?_⟩
  · rw [hnew]
    show RandKey.join _ gL gS gN sh = _
    unfold RandKey.join
    rw [check_data_default]
  · show _CNT (sh (A ++ B ++ C)) = .ok (a, b, c)
    simp only [_CNT]
    rw [hl, hs, hn, hbyte]
    simp

/-- Witness for C2: counts ("10","2","3"), the all-zero RNG oracle and
the identity shuffle; re-scanning the key yields (10,2,3). -/
theorem C2_witness :
    ∃ k, (RandKey.new ['1', '0'] ['2'] ['3']).bind
        (fun e => e.join zOracle zOracle zOracle id) = .ok k ∧
      _CNT k.key = .ok (10, 2, 3) :=
  C2_classification_roundtrip ['1', '0'] ['2'] ['3'] 10 2 3 (by rfl) (by rfl)
    (by rfl) zOracle zOracle zOracle id (fun _ _ => Nat.zero_lt_succ _)
    (fun _ _ => Nat.zero_lt_succ _) (fun _ _ => Nat.zero_lt_succ _)
    (fun w => List.Perm.refl w)
